import Mathlib

set_option maxRecDepth 8000

/-- Outcome a recursive delete attempt (shutil.rmtree) would have on a directory tree. -/
inductive DelOutcome where
  | ok : DelOutcome
  | permDenied : DelOutcome
  | failWith : String → DelOutcome
  deriving DecidableEq, Repr

/-- An immediate child of the target path as the scan observes it: its base name,
whether it is a directory, its own mtime in seconds, the byte total a recursive
walk would report, whether stat or the walk raises for this item, and what a
delete attempt on it would do. -/
structure ChildEntry where
  name : String
  isDir : Bool
  mtime : Int
  sizeBytes : Nat
  statFail : Bool
  deleteOutcome : DelOutcome
  deriving DecidableEq, Repr

/-- The observable filesystem state under the target path: whether the path
exists, whether top-level enumeration (iterdir) raises and with what message,
and the list of immediate children in enumeration order. -/
structure FS where
  targetExists : Bool
  scanFail : Option String
  children : List ChildEntry
  deriving DecidableEq, Repr

/-- Worker configuration fields set by reconfigure: target_path, days_old, dry_run. -/
structure Config where
  targetPath : String
  daysOld : Int
  dryRun : Bool
  deriving DecidableEq, Repr

/-- Round n / d to the nearest integer with ties to even, as Python round does
on these exact binary values. Assumes 0 < d. -/
def rdivHalfEven (n d : Nat) : Nat :=
  let q := n / d
  let r := n % d
  if 2 * r < d then q
  else if d < 2 * r then q + 1
  else if q % 2 = 0 then q else q + 1

/-- round(bytes / (1024 * 1024), 2) expressed in hundredths of a megabyte. -/
def mbHundredths (bytes : Nat) : Nat := rdivHalfEven (bytes * 100) 1048576

/-- One orphan entry of the analyze result: name, age_days, size_mb (in
hundredths of MB) and the eligible flag. -/
structure OrphanInfo where
  name : String
  ageDays : Int
  sizeMBh : Nat
  eligible : Bool
  deriving DecidableEq, Repr

/-- (datetime.now() - mtime).days: the whole-day floor of the difference. -/
def ageDaysOf (now mtime : Int) : Int := (now - mtime).fdiv 86400

/-- The orphan_info dict built for one non-active child directory. -/
def classifyChild (now daysOld : Int) (c : ChildEntry) : OrphanInfo :=
  { name := c.name
    ageDays := ageDaysOf now c.mtime
    sizeMBh := mbHundredths c.sizeBytes
    eligible := decide (ageDaysOf now c.mtime ≥ daysOld) }

/-- Children that survive the analyze loop: directories, not active, whose
stat and walk succeed (a per-item failure omits the entry). -/
def scannedOrphanChildren (active : List String) (fs : FS) : List ChildEntry :=
  fs.children.filter (fun c => c.isDir && !(active.contains c.name) && !c.statFail)

/-- The orphans list in enumeration order, before sorting. -/
def classifiedOrphans (cfg : Config) (active : List String) (fs : FS) (now : Int) :
    List OrphanInfo :=
  (scannedOrphanChildren active fs).map (classifyChild now cfg.daysOld)

/-- The sort key relation of orphans.sort(key=size_mb, reverse=True): a comes
no later than b when b.sizeMBh ≤ a.sizeMBh. -/
def sizeDesc (a b : OrphanInfo) : Prop := b.sizeMBh ≤ a.sizeMBh

instance : DecidableRel sizeDesc :=
  fun a b => inferInstanceAs (Decidable (b.sizeMBh ≤ a.sizeMBh))

instance : IsTotal OrphanInfo sizeDesc :=
  ⟨fun a b => Nat.le_total b.sizeMBh a.sizeMBh⟩

instance : IsTrans OrphanInfo sizeDesc :=
  ⟨fun _ _ _ hab hbc => le_trans hbc hab⟩

/-- The dict returned by _analyze; error = none means the success dict, which
carries no error key. recoverable_mbh is in hundredths of MB. -/
structure AnalyzeResult where
  error : Option String
  active_resources : List String
  orphaned_directories : List OrphanInfo
  eligible_for_cleanup : Nat
  total_orphans : Nat
  recoverable_mbh : Nat
  deriving DecidableEq, Repr

/-- _analyze: existence check, scan, per-child classification, summary, and a
stable descending sort by size_mb. active models set(self._get_active_resources())
and list(active) is modelled as dedup. -/
def analyze (cfg : Config) (active : List String) (fs : FS) (now : Int) : AnalyzeResult :=
  if fs.targetExists = false then
    { error := some ("Target path does not exist: " ++ cfg.targetPath)
      active_resources := []
      orphaned_directories := []
      eligible_for_cleanup := 0
      total_orphans := 0
      recoverable_mbh := 0 }
  else
    match fs.scanFail with
    | some e =>
        { error := some ("Failed to scan: " ++ e)
          active_resources := active.dedup
          orphaned_directories := []
          eligible_for_cleanup := 0
          total_orphans := 0
          recoverable_mbh := 0 }
    | none =>
        let orphans := classifiedOrphans cfg active fs now
        let elig := orphans.filter (fun o => o.eligible)
        let sortedOrphans := List.insertionSort sizeDesc orphans
        { error := none
          active_resources := active.dedup
          orphaned_directories := sortedOrphans
          eligible_for_cleanup := elig.length
          total_orphans := sortedOrphans.length
          recoverable_mbh := (elig.map OrphanInfo.sizeMBh).sum }

/-- A value stored in the status dict. -/
inductive SVal where
  | s : String → SVal
  | i : Int → SVal
  | b : Bool → SVal
  | q : Nat → SVal
  deriving DecidableEq, Repr

/-- _get_status as an association list in the insertion order of the dict. -/
def get_status (cfg : Config) (fs : FS) : List (String × SVal) :=
  let base : List (String × SVal) :=
    [("target_path", SVal.s cfg.targetPath),
     ("days_old", SVal.i cfg.daysOld),
     ("dry_run", SVal.b cfg.dryRun),
     ("exists", SVal.b fs.targetExists)]
  if fs.targetExists = true then
    match fs.scanFail with
    | some _ => base ++ [("directory_count", SVal.i 0), ("total_size_mb", SVal.i 0)]
    | none =>
        let dirs := fs.children.filter (fun c => c.isDir)
        let total := ((dirs.filter (fun c => !c.statFail)).map ChildEntry.sizeBytes).sum
        base ++ [("directory_count", SVal.i (dirs.length : Int)),
                 ("total_size_mb", SVal.q (mbHundredths total))]
  else
    base ++ [("directory_count", SVal.i 0), ("total_size_mb", SVal.i 0)]

/-- One skipped entry of the sweep report. -/
structure SkipEntry where
  name : String
  reason : String
  deriving DecidableEq, Repr

/-- One errors entry of the sweep report. -/
structure ErrEntry where
  name : String
  emsg : String
  deriving DecidableEq, Repr

/-- The dict returned by _sweep: either the bare error dict, or the full
report (deleted, skipped, errors, freed_mb in hundredths, dry_run echo). -/
inductive SweepResult where
  | failed : String → SweepResult
  | report : List String → List SkipEntry → List ErrEntry → Nat → Bool → SweepResult
  deriving DecidableEq, Repr

def SweepResult.deletedNames : SweepResult → List String
  | .failed _ => []
  | .report d _ _ _ _ => d

def SweepResult.skippedNames : SweepResult → List String
  | .failed _ => []
  | .report _ s _ _ _ => s.map SkipEntry.name

def SweepResult.errorNames : SweepResult → List String
  | .failed _ => []
  | .report _ _ e _ _ => e.map ErrEntry.name

def SweepResult.errEntries : SweepResult → List ErrEntry
  | .failed _ => []
  | .report _ _ e _ _ => e

/-- shutil.rmtree on target_path / dname: removes the child on success, raises
PermissionError or another exception otherwise; a missing path raises. -/
def rmtree (fs : FS) (dname : String) : DelOutcome × FS :=
  match fs.children.find? (fun c => c.name == dname) with
  | none => (DelOutcome.failWith ("No such file or directory: " ++ dname), fs)
  | some c =>
      match c.deleteOutcome with
      | DelOutcome.ok =>
          (DelOutcome.ok, { fs with children := fs.children.filter (fun c2 => !(c2.name == dname)) })
      | DelOutcome.permDenied => (DelOutcome.permDenied, fs)
      | DelOutcome.failWith m => (DelOutcome.failWith m, fs)

/-- The reason string recorded for an ineligible orphan. -/
def skipReasonText (ageDays daysOld : Int) : String :=
  "Only " ++ toString ageDays ++ " days old (threshold: " ++ toString daysOld ++ ")"

/-- Accumulated outcome of the sweep loop plus the filesystem it leaves behind. -/
structure LoopOut where
  deleted : List String
  skipped : List SkipEntry
  errs : List ErrEntry
  freedMBh : Nat
  fs : FS
  deriving DecidableEq, Repr

/-- The per-orphan loop of _sweep, threading the filesystem through live
deletions. -/
def sweepLoop (cfg : Config) : FS → List OrphanInfo → LoopOut
  | fs, [] => { deleted := [], skipped := [], errs := [], freedMBh := 0, fs := fs }
  | fs, o :: rest =>
    if o.eligible = false then
      let out := sweepLoop cfg fs rest
      { out with skipped := { name := o.name, reason := skipReasonText o.ageDays cfg.daysOld } :: out.skipped }
    else if cfg.dryRun then
      let out := sweepLoop cfg fs rest
      { out with deleted := o.name :: out.deleted, freedMBh := o.sizeMBh + out.freedMBh }
    else
      match rmtree fs o.name with
      | (DelOutcome.ok, fs1) =>
          let out := sweepLoop cfg fs1 rest
          { out with deleted := o.name :: out.deleted, freedMBh := o.sizeMBh + out.freedMBh }
      | (DelOutcome.permDenied, fs1) =>
          let out := sweepLoop cfg fs1 rest
          { out with errs := { name := o.name, emsg := "Permission denied for " ++ o.name } :: out.errs }
      | (DelOutcome.failWith m, fs1) =>
          let out := sweepLoop cfg fs1 rest
          { out with errs := { name := o.name, emsg := m } :: out.errs }

/-- _sweep: analyze, bail out on an error-flagged analysis, otherwise run the
loop over the sorted orphans; returns the report and the resulting filesystem. -/
def sweep (cfg : Config) (active : List String) (fs : FS) (now : Int) : SweepResult × FS :=
  let analysis := analyze cfg active fs now
  match analysis.error with
  | some e => (SweepResult.failed e, fs)
  | none =>
      let out := sweepLoop cfg fs analysis.orphaned_directories
      (SweepResult.report out.deleted out.skipped out.errs out.freedMBh cfg.dryRun, out.fs)

/-- The value returned (or the invalid-argument raise) of do_command. -/
inductive CommandOut where
  | statusOut : List (String × SVal) → CommandOut
  | analyzeOut : AnalyzeResult → CommandOut
  | sweepOut : SweepResult → CommandOut
  | invalidArg : String → CommandOut
  deriving DecidableEq, Repr

/-- do_command: command.get(command, status) then dispatch on the keyword. -/
def do_command (cfg : Config) (active : List String) (fs : FS) (now : Int)
    (command : List (String × String)) : CommandOut :=
  let cmd := (command.lookup "command").getD "status"
  if cmd = "status" then CommandOut.statusOut (get_status cfg fs)
  else if cmd = "analyze" then CommandOut.analyzeOut (analyze cfg active fs now)
  else if cmd = "sweep" then CommandOut.sweepOut (sweep cfg active fs now).1
  else CommandOut.invalidArg ("Unknown command: " ++ cmd ++ ". Valid commands: status, analyze, sweep")

/-- Adding an element to the middle block of a three-block concatenation adds it
to the permutation. -/
theorem perm_cons_mid {α : Type} (a : α) {d s e t : List α} (h : (d ++ s ++ e).Perm t) :
    (d ++ (a :: s) ++ e).Perm (a :: t) := by
  have h1 : d ++ (a :: s) ++ e = d ++ a :: (s ++ e) := by simp
  rw [h1]
  refine List.Perm.trans List.perm_middle (List.Perm.cons a ?_)
  simpa [List.append_assoc] using h

/-- Adding an element to the last block of a three-block concatenation adds it
to the permutation. -/
theorem perm_cons_last {α : Type} (a : α) {d s e t : List α} (h : (d ++ s ++ e).Perm t) :
    (d ++ s ++ (a :: e)).Perm (a :: t) :=
  List.Perm.trans List.perm_middle (List.Perm.cons a h)

/-- The names recorded by the sweep loop are a permutation of the orphan names
it was given. -/
theorem sweepLoop_names_perm (cfg : Config) (l : List OrphanInfo) (fs : FS) :
    ((sweepLoop cfg fs l).deleted ++ (sweepLoop cfg fs l).skipped.map SkipEntry.name ++
      (sweepLoop cfg fs l).errs.map ErrEntry.name).Perm (l.map OrphanInfo.name) := by
  induction l generalizing fs with
  | nil => simp [sweepLoop]
  | cons o rest ih =>
      by_cases he : o.eligible = false
      · simp only [sweepLoop, he, if_true, List.map_cons, List.map]
        exact perm_cons_mid o.name (ih fs)
      · have he' : o.eligible = true := by revert he; cases o.eligible <;> simp
        by_cases hd : cfg.dryRun
        · simp only [sweepLoop, he', hd, List.map_cons, if_true, if_false]
          simp only [Bool.true_eq_false, if_false, ite_true, List.cons_append]
          exact List.Perm.cons o.name (ih fs)
        · rcases hr : rmtree fs o.name with ⟨out, fs1⟩
          cases out with
          | ok =>
              simp only [sweepLoop, he', hd, hr, List.map_cons]
              simp only [Bool.true_eq_false, if_false, List.cons_append]
              exact List.Perm.cons o.name (ih fs1)
          | permDenied =>
              simp only [sweepLoop, he', hd, hr, List.map_cons]
              simp only [Bool.true_eq_false, if_false]
              exact perm_cons_last o.name (ih fs1)
          | failWith m =>
              simp only [sweepLoop, he', hd, hr, List.map_cons]
              simp only [Bool.true_eq_false, if_false]
              exact perm_cons_last o.name (ih fs1)

/-- With dry_run set, the sweep loop leaves the filesystem untouched. -/
theorem sweepLoop_dry_fs (cfg : Config) (hd : cfg.dryRun = true) (l : List OrphanInfo) (fs : FS) :
    (sweepLoop cfg fs l).fs = fs := by
  induction l generalizing fs with
  | nil => simp [sweepLoop]
  | cons o rest ih =>
      by_cases he : o.eligible = false
      · simp [sweepLoop, he, ih]
      · have he' : o.eligible = true := by revert he; cases o.eligible <;> simp
        simp [sweepLoop, he', hd, ih]

/-- With dry_run set, the sweep loop records no errors, deletes exactly the
eligible orphans in order, and skips exactly the ineligible ones in order. -/
theorem sweepLoop_dry_out (cfg : Config) (hd : cfg.dryRun = true) (l : List OrphanInfo) (fs : FS) :
    (sweepLoop cfg fs l).errs = [] ∧
    (sweepLoop cfg fs l).deleted = (l.filter (fun o => o.eligible)).map OrphanInfo.name ∧
    (sweepLoop cfg fs l).skipped.map SkipEntry.name =
      (l.filter (fun o => !o.eligible)).map OrphanInfo.name := by
  induction l generalizing fs with
  | nil => simp [sweepLoop]
  | cons o rest ih =>
      by_cases he : o.eligible = false
      · simpa [sweepLoop, he, List.filter_cons] using ih fs
      · have he' : o.eligible = true := by revert he; cases o.eligible <;> simp
        simpa [sweepLoop, he', hd, List.filter_cons] using ih fs

/-- On a successful analysis the orphan list is the stable descending sort by
size_mb of the enumeration-order classification. -/
theorem analyze_ok_shape (cfg : Config) (active : List String) (fs : FS) (now : Int)
    (h : (analyze cfg active fs now).error = none) :
    (analyze cfg active fs now).orphaned_directories =
      List.insertionSort sizeDesc (classifiedOrphans cfg active fs now) := by
  cases hte : fs.targetExists
  · simp [analyze, hte] at h
  · cases hsf : fs.scanFail
    · simp [analyze, hte, hsf]
    · simp [analyze, hte, hsf] at h

/-- On a successful analysis, sweep returns the loop outcome as a report. -/
theorem sweep_ok_eq (cfg : Config) (active : List String) (fs : FS) (now : Int)
    (h : (analyze cfg active fs now).error = none) :
    sweep cfg active fs now =
      (SweepResult.report
        (sweepLoop cfg fs (analyze cfg active fs now).orphaned_directories).deleted
        (sweepLoop cfg fs (analyze cfg active fs now).orphaned_directories).skipped
        (sweepLoop cfg fs (analyze cfg active fs now).orphaned_directories).errs
        (sweepLoop cfg fs (analyze cfg active fs now).orphaned_directories).freedMBh
        cfg.dryRun,
       (sweepLoop cfg fs (analyze cfg active fs now).orphaned_directories).fs) := by
  simp only [sweep]
  rw [h]

/-- Ordered insertion places an element before exactly the strictly larger keys,
so filtering by any fixed key commutes with it. -/
theorem filter_orderedInsert_sizeMBh (k : Nat) (a : OrphanInfo) (l : List OrphanInfo) :
    (List.orderedInsert sizeDesc a l).filter (fun o => o.sizeMBh == k) =
      if a.sizeMBh == k then a :: l.filter (fun o => o.sizeMBh == k)
      else l.filter (fun o => o.sizeMBh == k) := by
  induction l with
  | nil =>
      by_cases hak : a.sizeMBh = k <;> simp [List.orderedInsert, List.filter_cons, hak]
  | cons b t ih =>
      by_cases hab : sizeDesc a b
      · rw [List.orderedInsert_of_le sizeDesc t hab]
        by_cases hak : a.sizeMBh = k <;> simp [List.filter_cons, hak]
      · have hlt : a.sizeMBh < b.sizeMBh := by
          have : ¬ b.sizeMBh ≤ a.sizeMBh := hab
          omega
        have hins : List.orderedInsert sizeDesc a (b :: t) =
            b :: List.orderedInsert sizeDesc a t := by
          simp [List.orderedInsert, hab]
        rw [hins]
        by_cases hak : a.sizeMBh = k
        · have hbk : ¬ b.sizeMBh = k := by omega
          simp [List.filter_cons, hak, hbk, ih]
        · simp [List.filter_cons, hak, ih]

/-- The stable sort keeps the elements of every fixed size_mb key in their
original order. -/
theorem filter_insertionSort_sizeMBh (k : Nat) (l : List OrphanInfo) :
    (List.insertionSort sizeDesc l).filter (fun o => o.sizeMBh == k) =
      l.filter (fun o => o.sizeMBh == k) := by
  induction l with
  | nil => rfl
  | cons a t ih =>
      show (List.orderedInsert sizeDesc a (List.insertionSort sizeDesc t)).filter
          (fun o => o.sizeMBh == k) = _
      rw [filter_orderedInsert_sizeMBh]
      by_cases hak : a.sizeMBh = k <;> simp [List.filter_cons, hak, ih]

/-- Shared fixture: a configuration with dry_run set. -/
def cfgW : Config := { targetPath := "/data", daysOld := 7, dryRun := true }

/-- Shared fixture: an empty existing target directory. -/
def fs0 : FS := { targetExists := true, scanFail := none, children := [] }

/-- Shared fixture: a missing target path. -/
def fsMissing : FS := { targetExists := false, scanFail := none, children := [] }

/-- Shared fixture: an existing target whose enumeration raises. -/
def fsScanFail : FS := { targetExists := true, scanFail := some "unreadable", children := [] }

/-- Shared fixture: one active directory, one eligible orphan (cam2, 10 days,
50 MB) and one ineligible orphan (cam3, 2 days, 10 MB), at now = 864000 s. -/
def fsW : FS :=
  { targetExists := true, scanFail := none,
    children :=
      [{ name := "cam1", isDir := true, mtime := 0, sizeBytes := 1000,
         statFail := false, deleteOutcome := DelOutcome.ok },
       { name := "cam2", isDir := true, mtime := 0, sizeBytes := 52428800,
         statFail := false, deleteOutcome := DelOutcome.ok },
       { name := "cam3", isDir := true, mtime := 691200, sizeBytes := 10485760,
         statFail := false, deleteOutcome := DelOutcome.ok }] }

/-- Shared fixture: the reference clock for fsW. -/
def nowW : Int := 864000

/-- Shared fixture: the orphan entry analyze produces for cam2 in fsW. -/
def oW : OrphanInfo := { name := "cam2", ageDays := 10, sizeMBh := 5000, eligible := true }

/-- C1: for every sweep run over a successful (non-error) analysis, the names in
the deleted, skipped and errors lists together are a permutation of the orphan
names of that analysis, and, the orphan names being distinct, each orphan name
occurs exactly once across the three lists. -/
theorem sweep_names_cover_orphans (cfg : Config) (active : List String) (fs : FS) (now : Int)
    (h : (analyze cfg active fs now).error = none)
    (hnd : ((analyze cfg active fs now).orphaned_directories.map OrphanInfo.name).Nodup) :
    (((sweep cfg active fs now).1.deletedNames ++ (sweep cfg active fs now).1.skippedNames ++
        (sweep cfg active fs now).1.errorNames).Perm
      ((analyze cfg active fs now).orphaned_directories.map OrphanInfo.name)) ∧
    (∀ n : String, n ∈ (analyze cfg active fs now).orphaned_directories.map OrphanInfo.name →
      List.count n ((sweep cfg active fs now).1.deletedNames ++
        (sweep cfg active fs now).1.skippedNames ++ (sweep cfg active fs now).1.errorNames) = 1) := by
  have hperm :
      (((sweep cfg active fs now).1.deletedNames ++ (sweep cfg active fs now).1.skippedNames ++
        (sweep cfg active fs now).1.errorNames).Perm
        ((analyze cfg active fs now).orphaned_directories.map OrphanInfo.name)) := by
    rw [sweep_ok_eq cfg active fs now h]
    simpa [SweepResult.deletedNames, SweepResult.skippedNames, SweepResult.errorNames] using
      sweepLoop_names_perm cfg (analyze cfg active fs now).orphaned_directories fs
  refine ⟨hperm, fun n hn => ?_⟩
  rw [hperm.count_eq n]
  exact List.count_eq_one_of_mem hnd hn

/-- C1 witness: the partition theorem instantiated on the concrete fixture. -/
theorem sweep_names_cover_orphans_witness :
    (((sweep cfgW ["cam1"] fsW nowW).1.deletedNames ++
        (sweep cfgW ["cam1"] fsW nowW).1.skippedNames ++
        (sweep cfgW ["cam1"] fsW nowW).1.errorNames).Perm
      ((analyze cfgW ["cam1"] fsW nowW).orphaned_directories.map OrphanInfo.name)) ∧
    List.count "cam2" ((sweep cfgW ["cam1"] fsW nowW).1.deletedNames ++
      (sweep cfgW ["cam1"] fsW nowW).1.skippedNames ++
      (sweep cfgW ["cam1"] fsW nowW).1.errorNames) = 1 :=
  ⟨(sweep_names_cover_orphans cfgW ["cam1"] fsW nowW (by decide) (by decide)).1,
   (sweep_names_cover_orphans cfgW ["cam1"] fsW nowW (by decide) (by decide)).2 "cam2" (by decide)⟩

/-- C2: with dry_run=true, sweep performs no filesystem mutation, so a
subsequent analyze or status call over the unchanged filesystem returns the
same result. -/
theorem dry_run_sweep_preserves_fs (cfg : Config) (active : List String) (fs : FS) (now : Int)
    (h : cfg.dryRun = true) :
    (sweep cfg active fs now).2 = fs ∧
    analyze cfg active (sweep cfg active fs now).2 now = analyze cfg active fs now ∧
    get_status cfg (sweep cfg active fs now).2 = get_status cfg fs := by
  have hfs : (sweep cfg active fs now).2 = fs := by
    simp only [sweep]
    rcases he : (analyze cfg active fs now).error with _ | e
    · simp [he, sweepLoop_dry_fs cfg h]
    · simp [he]
  exact ⟨hfs, by rw [hfs], by rw [hfs]⟩

/-- C2 witness: the dry-run frame theorem instantiated on the concrete fixture. -/
theorem dry_run_sweep_preserves_fs_witness :
    cfgW.dryRun = true ∧ (sweep cfgW ["cam1"] fsW nowW).2 = fsW :=
  ⟨rfl, (dry_run_sweep_preserves_fs cfgW ["cam1"] fsW nowW rfl).1⟩

/-- C8: when the internal analysis carries an error flag, sweep returns only
that error, with no deleted, skipped or errors lists, and leaves the
filesystem unchanged. -/
theorem sweep_propagates_analysis_error (cfg : Config) (active : List String) (fs : FS)
    (now : Int) (e : String) (h : (analyze cfg active fs now).error = some e) :
    sweep cfg active fs now = (SweepResult.failed e, fs) := by
  simp only [sweep]
  rw [h]

/-- C8 witness: error propagation instantiated at a missing target path. -/
theorem sweep_propagates_analysis_error_witness :
    (analyze cfgW ["cam1"] fsMissing nowW).error =
      some ("Target path does not exist: " ++ cfgW.targetPath) ∧
    sweep cfgW ["cam1"] fsMissing nowW =
      (SweepResult.failed ("Target path does not exist: " ++ cfgW.targetPath), fsMissing) :=
  ⟨by decide,
   sweep_propagates_analysis_error cfgW ["cam1"] fsMissing nowW
     ("Target path does not exist: " ++ cfgW.targetPath) (by decide)⟩

/-- C9: a dry-run sweep over a successful analysis reports no errors, deletes
exactly the eligible orphans in the sorted analysis order, and skips exactly
the ineligible ones. -/
theorem dry_run_sweep_report (cfg : Config) (active : List String) (fs : FS) (now : Int)
    (hd : cfg.dryRun = true) (h : (analyze cfg active fs now).error = none) :
    (sweep cfg active fs now).1.errEntries = [] ∧
    (sweep cfg active fs now).1.deletedNames =
      (((analyze cfg active fs now).orphaned_directories).filter
        (fun o => o.eligible)).map OrphanInfo.name ∧
    (sweep cfg active fs now).1.skippedNames =
      (((analyze cfg active fs now).orphaned_directories).filter
        (fun o => !o.eligible)).map OrphanInfo.name := by
  rw [sweep_ok_eq cfg active fs now h]
  simp only [SweepResult.errEntries, SweepResult.deletedNames, SweepResult.skippedNames]
  exact sweepLoop_dry_out cfg hd (analyze cfg active fs now).orphaned_directories fs

/-- C9 witness: the dry-run report theorem instantiated on the concrete fixture. -/
theorem dry_run_sweep_report_witness :
    cfgW.dryRun = true ∧
    (sweep cfgW ["cam1"] fsW nowW).1.errEntries = [] ∧
    (sweep cfgW ["cam1"] fsW nowW).1.deletedNames =
      (((analyze cfgW ["cam1"] fsW nowW).orphaned_directories).filter
        (fun o => o.eligible)).map OrphanInfo.name :=
  ⟨rfl, (dry_run_sweep_report cfgW ["cam1"] fsW nowW rfl (by decide)).1,
   (dry_run_sweep_report cfgW ["cam1"] fsW nowW rfl (by decide)).2.1⟩

/-- C10: a do_command invocation whose command mapping lacks a command key runs
the status operation and returns its result. -/
theorem missing_command_runs_status (cfg : Config) (active : List String) (fs : FS) (now : Int)
    (command : List (String × String)) (h : command.lookup "command" = none) :
    do_command cfg active fs now command = CommandOut.statusOut (get_status cfg fs) := by
  simp [do_command, h]

/-- C10 witness: dispatch with an empty command mapping. -/
theorem missing_command_runs_status_witness :
    (([] : List (String × String)).lookup "command" = none) ∧
    do_command cfgW ["cam1"] fs0 nowW [] = CommandOut.statusOut (get_status cfgW fs0) :=
  ⟨rfl, missing_command_runs_status cfgW ["cam1"] fs0 nowW [] rfl⟩

/-- The recursive-walk byte total of the named child, used to state the claimed
byte ordering of the orphan list. -/
def bytesOfName (fs : FS) (n : String) : Nat :=
  ((fs.children.find? (fun c => c.name == n)).map ChildEntry.sizeBytes).getD 0

/-- Modelled from the spec wording of the claim: the orphan list is ordered
descending by size_bytes. -/
def claimedBytesDescending (fs : FS) (l : List OrphanInfo) : Prop :=
  l.Pairwise (fun a b => bytesOfName fs b.name ≤ bytesOfName fs a.name)

/-- Counterexample fixture for the byte-ordering claim: two orphans of 1 and 2
bytes, both rounding to 0.00 MB. -/
def fsTie : FS :=
  { targetExists := true, scanFail := none,
    children :=
      [{ name := "a", isDir := true, mtime := 0, sizeBytes := 1,
         statFail := false, deleteOutcome := DelOutcome.ok },
       { name := "b", isDir := true, mtime := 0, sizeBytes := 2,
         statFail := false, deleteOutcome := DelOutcome.ok }] }

/-- C3 counterexample: on fsTie the successful analysis lists the 1-byte orphan
before the 2-byte orphan, because the sort key is the rounded size_mb (both
0.00 MB) and the stable sort keeps enumeration order, so the output is not
descending by size_bytes. -/
theorem orphans_not_bytes_sorted_cex :
    (analyze cfgW [] fsTie 0).error = none ∧
    (analyze cfgW [] fsTie 0).orphaned_directories.map OrphanInfo.name = ["a", "b"] ∧
    bytesOfName fsTie "a" = 1 ∧ bytesOfName fsTie "b" = 2 ∧
    ¬ claimedBytesDescending fsTie (analyze cfgW [] fsTie 0).orphaned_directories := by
  refine ⟨by decide, by decide, by decide, by decide, ?_⟩
  rw [claimedBytesDescending]
  decide

/-- C3 (amended): for every successful analyze call, orphaned_directories is
sorted descending by the rounded size_mb value, is a permutation of the
enumeration-order classified orphans, and keeps the entries of every fixed
size_mb value in their original enumeration order (stable sort). -/
theorem orphans_sorted_by_size_mb (cfg : Config) (active : List String) (fs : FS) (now : Int)
    (h : (analyze cfg active fs now).error = none) :
    List.Sorted sizeDesc (analyze cfg active fs now).orphaned_directories ∧
    ((analyze cfg active fs now).orphaned_directories).Perm
      (classifiedOrphans cfg active fs now) ∧
    ∀ k : Nat,
      ((analyze cfg active fs now).orphaned_directories).filter (fun o => o.sizeMBh == k) =
        (classifiedOrphans cfg active fs now).filter (fun o => o.sizeMBh == k) := by
  rw [analyze_ok_shape cfg active fs now h]
  exact ⟨List.sorted_insertionSort sizeDesc (classifiedOrphans cfg active fs now),
    List.perm_insertionSort sizeDesc (classifiedOrphans cfg active fs now),
    fun k => filter_insertionSort_sizeMBh k (classifiedOrphans cfg active fs now)⟩

/-- C3 witness: the amended ordering theorem instantiated on the concrete
fixture, with the stability clause applied at key 5000. -/
theorem orphans_sorted_by_size_mb_witness :
    List.Sorted sizeDesc (analyze cfgW ["cam1"] fsW nowW).orphaned_directories ∧
    ((analyze cfgW ["cam1"] fsW nowW).orphaned_directories).filter (fun o => o.sizeMBh == 5000) =
      (classifiedOrphans cfgW ["cam1"] fsW nowW).filter (fun o => o.sizeMBh == 5000) :=
  ⟨(orphans_sorted_by_size_mb cfgW ["cam1"] fsW nowW (by decide)).1,
   (orphans_sorted_by_size_mb cfgW ["cam1"] fsW nowW (by decide)).2.2 5000⟩

/-- C4 counterexample: the status mapping at a concrete input has neither an
age_threshold_days key nor an active_count key, so it does not contain exactly
the claimed key set. -/
theorem status_keys_cex :
    "age_threshold_days" ∉ (get_status cfgW fs0).map Prod.fst ∧
    "active_count" ∉ (get_status cfgW fs0).map Prod.fst ∧
    "days_old" ∈ (get_status cfgW fs0).map Prod.fst := by
  refine ⟨?_, ?_, ?_⟩ <;> decide

/-- C4 (amended): every status call returns a mapping whose keys are exactly
target_path, days_old, dry_run, exists, directory_count and total_size_mb, in
that order; the age threshold is reported under days_old and there is no
active_count key. -/
theorem status_keys_exact (cfg : Config) (fs : FS) :
    (get_status cfg fs).map Prod.fst =
      ["target_path", "days_old", "dry_run", "exists", "directory_count", "total_size_mb"] := by
  cases hte : fs.targetExists
  · simp [get_status, hte]
  · cases hsf : fs.scanFail <;> simp [get_status, hte, hsf]

/-- C5 counterexample: with target_path missing and the supplied active set
containing cam1, the error-flagged analyze result does not echo cam1 in its
active_resources field (the missing-path branch hard-codes an empty list). -/
theorem analyze_missing_path_active_cex :
    ((analyze cfgW ["cam1"] fsMissing 0).error).isSome = true ∧
    (analyze cfgW ["cam1"] fsMissing 0).active_resources = [] ∧
    "cam1" ∉ (analyze cfgW ["cam1"] fsMissing 0).active_resources := by
  refine ⟨?_, ?_, ?_⟩ <;> decide

/-- C5 (amended): every error-flagged analyze result carries an empty orphan
list and zero counters; when the error came from a top-level enumeration
failure the supplied active set is echoed, but when the target path is missing
the active_resources field is the empty list instead. -/
theorem analyze_error_result_fields (cfg : Config) (active : List String) (fs : FS) (now : Int)
    (h : ((analyze cfg active fs now).error).isSome = true) :
    (analyze cfg active fs now).orphaned_directories = [] ∧
    (analyze cfg active fs now).eligible_for_cleanup = 0 ∧
    (analyze cfg active fs now).total_orphans = 0 ∧
    (analyze cfg active fs now).recoverable_mbh = 0 ∧
    (fs.targetExists = true →
      ∀ n : String, n ∈ (analyze cfg active fs now).active_resources ↔ n ∈ active) ∧
    (fs.targetExists = false → (analyze cfg active fs now).active_resources = []) := by
  cases hte : fs.targetExists
  · simp [analyze, hte]
  · cases hsf : fs.scanFail
    · simp [analyze, hte, hsf] at h
    · simp [analyze, hte, hsf, List.mem_dedup]

/-- C5 witness: the amended error-payload theorem instantiated at a failing
top-level enumeration, with the echo clause applied to cam1. -/
theorem analyze_error_result_fields_witness :
    ((analyze cfgW ["cam1"] fsScanFail 0).error).isSome = true ∧
    (analyze cfgW ["cam1"] fsScanFail 0).orphaned_directories = [] ∧
    ("cam1" ∈ (analyze cfgW ["cam1"] fsScanFail 0).active_resources ↔ "cam1" ∈ ["cam1"]) :=
  ⟨by decide,
   (analyze_error_result_fields cfgW ["cam1"] fsScanFail 0 (by decide)).1,
   (analyze_error_result_fields cfgW ["cam1"] fsScanFail 0 (by decide)).2.2.2.2.1 rfl "cam1"⟩

/-- C6: for every orphan entry of a successful analysis, the eligible flag is
the inclusive comparison age_days >= age_threshold_days: an entry whose age
equals the threshold is eligible, and one whose age is threshold minus one is
not. -/
theorem orphan_eligibility_threshold (cfg : Config) (active : List String) (fs : FS) (now : Int)
    (o : OrphanInfo) (h : (analyze cfg active fs now).error = none)
    (ho : o ∈ (analyze cfg active fs now).orphaned_directories) :
    (o.eligible = true ↔ cfg.daysOld ≤ o.ageDays) ∧
    (o.ageDays = cfg.daysOld → o.eligible = true) ∧
    (o.ageDays = cfg.daysOld - 1 → o.eligible = false) := by
  rw [analyze_ok_shape cfg active fs now h, List.mem_insertionSort] at ho
  rcases List.mem_map.mp ho with ⟨c, _, rfl⟩
  refine ⟨?_, ?_, ?_⟩
  · simp [classifyChild, ge_iff_le]
  · intro hage
    simp only [classifyChild] at hage ⊢
    simp only [decide_eq_true_eq, ge_iff_le]
    omega
  · intro hage
    simp only [classifyChild] at hage ⊢
    simp only [decide_eq_false_iff_not, ge_iff_le]
    omega

/-- C6 witness: the threshold theorem instantiated on the eligible 10-day-old
orphan of the concrete fixture. -/
theorem orphan_eligibility_threshold_witness :
    oW ∈ (analyze cfgW ["cam1"] fsW nowW).orphaned_directories ∧
    (oW.eligible = true ↔ cfgW.daysOld ≤ oW.ageDays) :=
  ⟨by decide,
   (orphan_eligibility_threshold cfgW ["cam1"] fsW nowW oW (by decide) (by decide)).1⟩

/-- C7: no orphan entry of any analyze result carries a name from the active
set, and every orphan entry comes from an immediate child directory of the
target path whose stat and walk succeeded. -/
theorem orphan_names_not_active (cfg : Config) (active : List String) (fs : FS) (now : Int)
    (o : OrphanInfo) (h : (analyze cfg active fs now).error = none)
    (ho : o ∈ (analyze cfg active fs now).orphaned_directories) :
    o.name ∉ active ∧
    ∃ c ∈ fs.children, c.isDir = true ∧ c.statFail = false ∧ c.name = o.name := by
  rw [analyze_ok_shape cfg active fs now h, List.mem_insertionSort] at ho
  rcases List.mem_map.mp ho with ⟨c, hc, rfl⟩
  rw [scannedOrphanChildren, List.mem_filter] at hc
  obtain ⟨hcm, hprop⟩ := hc
  simp only [Bool.and_eq_true, Bool.not_eq_true'] at hprop
  obtain ⟨⟨hdir, hcon⟩, hsf⟩ := hprop
  refine ⟨?_, c, hcm, hdir, hsf, rfl⟩
  intro hmem
  have : c.name ∈ active := hmem
  simp [List.contains_eq_any_beq] at hcon
  exact hcon this

/-- C7 witness: active exclusion instantiated on the concrete fixture. -/
theorem orphan_names_not_active_witness :
    oW ∈ (analyze cfgW ["cam1"] fsW nowW).orphaned_directories ∧
    oW.name ∉ ["cam1"] :=
  ⟨by decide,
   (orphan_names_not_active cfgW ["cam1"] fsW nowW oW (by decide) (by decide)).1⟩
